import Mathlib

/-!
Verification of the night-kitchen scheduler and runner core logic.

The definitions below are a shallow embedding of the Rust sources:

* `src/bin/scheduler/time.rs` — microsecond-epoch decoding and the
  monotonic-to-realtime offset conversion;
* `src/bin/scheduler/rtcwake.rs` — the `RtcTime` calendar conversions, the
  `/etc/adjtime` clock-mode parser, and the hardware clock mode conversions;
* `src/bin/scheduler/main.rs` — the wake-alarm planner (`next_activation`,
  the fold over timer units, and `set_wake_alarm`);
* `src/bin/scheduler/power_monitor.rs` — the inhibitor-lock lifecycle and the
  signal-handler bodies, embedded as explicit state transitions and traces;
* `src/bin/runner/main.rs` — the boot/wake attribution logic;
* `common/src/session.rs` — `has_other_sessions`.

Machine integers are embedded as `Nat`/`Int` with explicit wrapping where the
Rust code can wrap (release-mode semantics for the `u64` multiply and the
`as i64` cast in `from_timestamp_usecs`). Fallible operations return
`Except`/`Option`. External inputs (D-Bus query results, file contents, the
current clock readings, the local-timezone offset) are passed as explicit
parameters.
-/

namespace NightKitchen

/-! ## Clock conversions (src/bin/scheduler/time.rs) -/

/-- Modulus of Rust u64 arithmetic. -/
def u64Mod : Nat := 2 ^ 64

/-- Reinterpretation of a u64 bit pattern as an i64, the Rust expression
`x as i64` (a bit-preserving cast). -/
def toI64 (n : Nat) : Int :=
  if n % u64Mod < 2 ^ 63 then ((n % u64Mod : Nat) : Int)
  else ((n % u64Mod : Nat) : Int) - (2 ^ 64 : Int)

/-- Embedding of `from_timestamp_usecs` from `time.rs`: the Rust code computes
`Utc.timestamp_nanos((usecs * 1000) as i64)`. The result is the number of
nanoseconds since the UTC UNIX epoch of the returned `DateTime`. The `u64`
multiplication wraps modulo `2 ^ 64` (release-mode semantics) and the cast to
`i64` reinterprets the bit pattern. -/
def from_timestamp_usecs (usecs : Nat) : Int :=
  toI64 ((usecs * 1000) % u64Mod)

/-- Embedding of `monotonic_to_realtime` from `time.rs`: the current readings
of CLOCK_MONOTONIC and CLOCK_REALTIME (in nanoseconds, as observed by the two
`clock_gettime` calls) are explicit parameters; the function adds their
difference to the input instant. -/
def monotonic_to_realtime (monotonic_now realtime_now : Int) (monotonic : Int) : Int :=
  monotonic + (realtime_now - monotonic_now)

/-! ## Clock mode and /etc/adjtime (src/bin/scheduler/rtcwake.rs) -/

/-- Embedding of Rust `str::trim`: removes whitespace characters from both
ends of the string. (Lean's own `String.trim` is extensionally the same but is
not kernel-computable, so the list-based definition is used.) -/
def rust_trim (s : String) : String :=
  String.mk (((s.data.dropWhile Char.isWhitespace).reverse.dropWhile Char.isWhitespace).reverse)

/-- Hardware clock mode, from `rtcwake.rs`. -/
inductive ClockMode
  | Utc
  | Local
  deriving DecidableEq, Repr

/-- Failure cases of `Rtc::read_clock_mode`. -/
inductive AdjtimeError
  /-- the file has fewer than three lines (`anyhow!("Invalid /etc/adjtime")`) -/
  | invalidFile
  /-- the mode line is neither UTC nor LOCAL (`anyhow!("Invalid clock mode")`) -/
  | invalidMode (line : String)
  deriving DecidableEq, Repr

/-- Embedding of `Rtc::read_clock_mode` from `rtcwake.rs`. The filesystem
state is passed explicitly: `none` models ENOENT for `/etc/adjtime`, and
`some lines` models a readable file already split into lines (as by
`BufReader::lines`). The code takes `lines().nth(2)` — the third line of the
file, counting empty lines — trims it and matches it against UTC and LOCAL. -/
def read_clock_mode (adjtime : Option (List String)) : Except AdjtimeError ClockMode :=
  match adjtime with
  | none => .ok .Utc
  | some lines =>
    match lines.get? 2 with
    | none => .error .invalidFile
    | some modeLine =>
      match rust_trim modeLine with
      | "UTC" => .ok .Utc
      | "LOCAL" => .ok .Local
      | other => .error (.invalidMode other)

/-- Modelled from the spec: the spec sentence says the clock mode is derived
from the third non-empty line of `/etc/adjtime`. This definition follows the
words of the spec (for comparison with `read_clock_mode`, which embeds the
source); it is not part of the source. -/
def read_clock_mode_spec_nonempty (adjtime : Option (List String)) :
    Except AdjtimeError ClockMode :=
  match adjtime with
  | none => .ok .Utc
  | some lines =>
    match (lines.filter (fun l => rust_trim l != "")).get? 2 with
    | none => .error .invalidFile
    | some modeLine =>
      match rust_trim modeLine with
      | "UTC" => .ok .Utc
      | "LOCAL" => .ok .Local
      | other => .error (.invalidMode other)

/-! ## Calendar conversions (src/bin/scheduler/rtcwake.rs, RtcTime) -/

/-- Model of a chrono `NaiveDateTime` as used by the source: a broken-down
calendar instant. `month` is chrono `month()` (1–12), `milli` is
`timestamp_subsec_millis()` (0–1999; chrono encodes a leap second as
second 59 with a sub-second part of 1000 ms or more, and `second()` always
returns a value in 0–59). -/
structure NaiveDateTime where
  year : Int
  month : Nat
  day : Nat
  hour : Nat
  minute : Nat
  second : Nat
  milli : Nat
  deriving DecidableEq, Repr

/-- Chrono invariants of a `NaiveDateTime` value, as guaranteed by its
constructors: field ranges of a valid broken-down time. -/
def NaiveDateTime.Valid (dt : NaiveDateTime) : Prop :=
  1 ≤ dt.month ∧ dt.month ≤ 12 ∧ 1 ≤ dt.day ∧ dt.day ≤ 31 ∧
    dt.hour ≤ 23 ∧ dt.minute ≤ 59 ∧ dt.second ≤ 59 ∧ dt.milli ≤ 1999

instance (dt : NaiveDateTime) : Decidable dt.Valid := by
  unfold NaiveDateTime.Valid; infer_instance

/-- Embedding of `struct RtcTime` from `rtcwake.rs` (the Linux
`struct rtc_time` layout): all fields are C ints. -/
structure RtcTime where
  tm_sec : Int
  tm_min : Int
  tm_hour : Int
  tm_mday : Int
  tm_mon : Int
  tm_year : Int
  tm_wday : Int
  tm_yday : Int
  tm_isdst : Int
  deriving DecidableEq, Repr

/-- Embedding of `RtcTime::from_chrono`: seconds become 60 when the chrono
sub-second part exceeds 999 ms (leap second), `tm_mon` is `month0()`,
`tm_year` is `year() - 1900`; the unused fields are zeroed. -/
def RtcTime.from_chrono (dt : NaiveDateTime) : RtcTime :=
  { tm_sec := if dt.milli > 999 then 60 else (dt.second : Int)
    tm_min := (dt.minute : Int)
    tm_hour := (dt.hour : Int)
    tm_mday := (dt.day : Int)
    tm_mon := (dt.month : Int) - 1
    tm_year := dt.year - 1900
    tm_wday := 0
    tm_yday := 0
    tm_isdst := 0 }

/-- Embedding of `RtcTime::to_chrono`: builds the date from
`tm_year + 1900`, `tm_mon + 1`, `tm_mday`, and the time of day either as
`hh:mm:59.1999` when `tm_sec == 60` (leap second) or as `hh:mm:tm_sec` with a
zero sub-second part. The `as u32` casts of the C int fields are embedded as
`Int.toNat` (the source only ever applies them to in-range values; chrono
panics otherwise). -/
def RtcTime.to_chrono (t : RtcTime) : NaiveDateTime :=
  if t.tm_sec = 60 then
    { year := t.tm_year + 1900, month := t.tm_mon.toNat + 1, day := t.tm_mday.toNat
      hour := t.tm_hour.toNat, minute := t.tm_min.toNat, second := 59, milli := 1999 }
  else
    { year := t.tm_year + 1900, month := t.tm_mon.toNat + 1, day := t.tm_mday.toNat
      hour := t.tm_hour.toNat, minute := t.tm_min.toNat, second := t.tm_sec.toNat, milli := 0 }

/-! ## Hardware clock domain conversions (src/bin/scheduler/rtcwake.rs, ClockMode)

For the wake-alarm planner the relevant content of a datetime is its position
on the time line, so UTC instants and hardware-naive calendar times are both
modelled as integers (nanoseconds since the epoch in their respective
readings), and the chrono `Local` timezone conversion becomes adding or
subtracting the (fixed) local-timezone offset `tz`, passed explicitly. -/

/-- Embedding of `ClockMode::to_datetime`: interprets a hardware-clock naive
time as a UTC instant. In UTC mode the naive time is the UTC reading; in
Local mode the naive reading is local wall-clock time, `tz` ahead of UTC. -/
def ClockMode.to_datetime (mode : ClockMode) (tz : Int) (hardware_time : Int) : Int :=
  match mode with
  | .Utc => hardware_time
  | .Local => hardware_time - tz

/-- Embedding of `ClockMode::to_hardware`: converts a UTC instant to the
hardware-clock naive reading (inverse of `ClockMode.to_datetime`). -/
def ClockMode.to_hardware (mode : ClockMode) (tz : Int) (dt : Int) : Int :=
  match mode with
  | .Utc => dt
  | .Local => dt + tz

/-! ## Wake alarm programming (src/bin/scheduler/main.rs, set_wake_alarm) -/

/-- Model of `RtcWakeAlarm` as manipulated by `set_wake_alarm`: the enabled
flag and the alarm time (hardware-naive, linearized as in
`ClockMode.to_datetime`). The kernel-owned `pending` flag is untouched by the
source and elided. -/
structure WakeAlarmConfig where
  enabled : Bool
  time : Int
  deriving DecidableEq, Repr

/-- Embedding of `set_wake_alarm` from `scheduler/main.rs`. Inputs: the clock
mode read from `/etc/adjtime`, the timezone offset `tz` for Local mode, the
alarm configuration `current` read back from the RTC, and the target
`alarm_time` (a UTC instant). Returns the final configuration together with
the list of configurations passed to the `RTC_WKALRM_SET` ioctl
(`rtc.set_alarm_configuration` is called exactly once, unconditionally, at
the end of the function). -/
def set_wake_alarm (mode : ClockMode) (tz : Int) (current : WakeAlarmConfig)
    (alarm_time : Int) : WakeAlarmConfig × List WakeAlarmConfig :=
  let cfg : WakeAlarmConfig :=
    if current.enabled then
      let current_alarm := mode.to_datetime tz current.time
      if current_alarm < alarm_time then
        current
      else
        { current with time := mode.to_hardware tz alarm_time }
    else
      { enabled := true, time := mode.to_hardware tz alarm_time }
  (cfg, [cfg])

/-! ## Wake-alarm planning (src/bin/scheduler/main.rs, next_activation and
the PreShutdown fold) -/

/-- Embedding of `next_activation` from `scheduler/main.rs` for one timer
unit. `timer` holds the `NextElapseUSecRealtime` and `NextElapseUSecMonotonic`
property values (u64 microseconds); zero means the timer has no event on that
clock. A nonzero monotonic value is converted through
`monotonic_to_realtime`, whose two clock readings are the explicit parameters
`monotonic_now` and `realtime_now`. When neither clock reports an event the
function returns an error (`anyhow!("Neither monotonic nor realtime next
elapsation point")`). -/
def next_activation (monotonic_now realtime_now : Int) (timer : Nat × Nat) :
    Except Unit Int :=
  let next_realtime : Option Int :=
    match timer.1 with
    | 0 => none
    | realtime_usecs => some (from_timestamp_usecs realtime_usecs)
  let next_monotonic : Option Int :=
    match timer.2 with
    | 0 => none
    | monotonic_usecs =>
      some (monotonic_to_realtime monotonic_now realtime_now
        (from_timestamp_usecs monotonic_usecs))
  let next_elapse : Option Int :=
    match next_realtime, next_monotonic with
    | nr, none => nr
    | none, nm => nm
    | some r, some m => some (min r m)
  match next_elapse with
  | some t => .ok t
  | none => .error ()

/-- Folding closure of the PreShutdown callback in `scheduler/main.rs`:
ignores a failed unit (after a warning) and keeps the minimum of the
successful activation times seen so far. -/
def fold_step (acc : Option Int) (time : Except Unit Int) : Option Int :=
  match acc, time with
  | _, .error _ => acc
  | none, .ok t => some t
  | some prev_time, .ok t => some (min prev_time t)

/-- Embedding of the PreShutdown callback fold from `scheduler/main.rs`: maps
`next_activation` over the configured timer units and folds with `fold_step`.
`none` means no unit contributed and RTC programming is skipped. -/
def plan_alarm_time (monotonic_now realtime_now : Int) (units : List (Nat × Nat)) :
    Option Int :=
  (units.map (next_activation monotonic_now realtime_now)).foldl fold_step none

/-- Realtime instants actually contributed by the units: the successful
results of `next_activation`. -/
def contributions (monotonic_now realtime_now : Int) (units : List (Nat × Nat)) :
    List Int :=
  units.filterMap (fun u => (next_activation monotonic_now realtime_now u).toOption)

/-! ## Boot/wake attribution (src/bin/runner/main.rs) -/

/-- Power action the runner performs after the payload unit finished. -/
inductive PowerAction
  | powerOff
  | suspend
  | noAction
  deriving DecidableEq, Repr

/-- MIN_INNOCENT_UPTIME from `runner/main.rs`, in seconds. -/
def MIN_INNOCENT_UPTIME : Nat := 300

/-- MIN_INNOCENT_WAKETIME from `runner/main.rs`, in nanoseconds (chrono
duration comparisons are at nanosecond precision). -/
def MIN_INNOCENT_WAKETIME : Int := 60 * 1000000000

/-- Embedding of `caused_boot`: the `sysinfo()` result is the explicit
parameter (`none` models the error branch, `some u` the uptime in whole
seconds as reported by the kernel). On error the function logs and returns
false. -/
def caused_boot (uptime : Option Nat) : Bool :=
  match uptime with
  | some u => decide (u < MIN_INNOCENT_UPTIME)
  | none => false

/-- Outcome of reading and parsing the resume-timestamp file in
`caused_wake`: the file may be unreadable (absent), readable but not a
decimal integer (corrupted), or hold a parsed i64 milliseconds-since-epoch
value. -/
inductive ResumeFile
  | absent
  | corrupted
  | timestamp (ms : Int)
  deriving DecidableEq, Repr

/-- Embedding of `caused_wake` from `runner/main.rs`. `start_ns` is the
runner start instant in nanoseconds since the epoch; the resume timestamp is
parsed as milliseconds and widened to nanoseconds (`Utc.timestamp_millis`).
`(start_time - resume_time).to_std()` fails exactly when the chrono duration
is negative, in which case the source returns true (clock-crossing race);
otherwise the duration is compared against MIN_INNOCENT_WAKETIME. -/
def caused_wake (start_ns : Int) (file : ResumeFile) : Bool :=
  match file with
  | .absent => false
  | .corrupted => false
  | .timestamp ms =>
    let resume_ns := ms * 1000000
    let delta := start_ns - resume_ns
    if delta < 0 then true
    else decide (delta < MIN_INNOCENT_WAKETIME)

/-- Embedding of the decision sequencing in the runner's `main`:
`should_shutdown` (computed from `caused_boot` before the payload runs) wins,
then `caused_wake`, then no power transition. -/
def runner_action (uptime : Option Nat) (start_ns : Int) (file : ResumeFile) :
    PowerAction :=
  if caused_boot uptime then .powerOff
  else if caused_wake start_ns file then .suspend
  else .noAction

/-! ## Power monitor (src/bin/scheduler/power_monitor.rs) -/

/-- PowerEvent from `power_monitor.rs`. -/
inductive PowerEvent
  | PreSleep
  | PostSleep
  | PreShutdown
  deriving DecidableEq, Repr

/-- Observable steps performed by the power monitor signal handlers, in
program order: invoking the user callback with an event (the callback call
returns before the next action starts, since the handler body is
straight-line sequential code), releasing the inhibitor lock, and taking the
inhibitor lock. -/
inductive MonitorAction
  | callback (ev : PowerEvent)
  | releaseInhibitor
  | takeInhibitor
  deriving DecidableEq, Repr

/-- Trace of the `PrepareForSleep` signal-handler closure registered in
`register_signal_matchers`: on `arg0 = true` it calls the callback with
PreSleep and then releases the inhibitor; on `arg0 = false` it calls the
callback with PostSleep and then takes the inhibitor. -/
def prepare_for_sleep_handler (arg0 : Bool) : List MonitorAction :=
  if arg0 then [.callback .PreSleep, .releaseInhibitor]
  else [.callback .PostSleep, .takeInhibitor]

/-- Trace of the `PrepareForShutdown` signal-handler closure registered in
`register_signal_matchers`: on `arg0 = true` it calls the callback with
PreShutdown and then releases the inhibitor; on `arg0 = false` it only logs
an anomaly. -/
def prepare_for_shutdown_handler (arg0 : Bool) : List MonitorAction :=
  if arg0 then [.callback .PreShutdown, .releaseInhibitor]
  else []

/-- A logind signal delivered to the power monitor. -/
inductive Signal
  | prepareForSleep (arg0 : Bool)
  | prepareForShutdown (arg0 : Bool)
  deriving DecidableEq, Repr

/-- Trace of one signal delivery. -/
def handle_signal : Signal → List MonitorAction
  | .prepareForSleep b => prepare_for_sleep_handler b
  | .prepareForShutdown b => prepare_for_shutdown_handler b

/-- Trace of a whole execution of the power monitor: the D-Bus pump delivers
the matched signals one at a time on the single main thread, so the overall
trace is the concatenation of the handler traces in delivery order. -/
def monitor_trace (signals : List Signal) : List MonitorAction :=
  signals.flatMap handle_signal

/-- State of the power monitor relevant to inhibitor-lock accounting:
`inhibitor` is the contents of the mutex-protected cell holding the
`OwnedFd`; `openFds` is the set of inhibitor file descriptors currently open
in the process (dropping an `OwnedFd` closes it); `nextFd` numbers the file
descriptors handed out by successive `Inhibit` calls. -/
structure MonitorState where
  inhibitor : Option Nat
  nextFd : Nat
  openFds : List Nat
  deriving DecidableEq, Repr

/-- Initial state: no lock held, no inhibitor fd open. -/
def initMonitorState : MonitorState := { inhibitor := none, nextFd := 0, openFds := [] }

/-- Embedding of `take_inhibitor` from `power_monitor.rs`: if the cell holds
a lock, put it back unchanged and do not call `Inhibit` (returned flag
false); otherwise call `Inhibit`, receiving a fresh fd, and store it
(returned flag true). -/
def take_inhibitor (s : MonitorState) : MonitorState × Bool :=
  match s.inhibitor with
  | some fd => ({ s with inhibitor := some fd }, false)
  | none =>
    ({ inhibitor := some s.nextFd, nextFd := s.nextFd + 1,
       openFds := s.nextFd :: s.openFds }, true)

/-- Embedding of `release_inhibitor` from `power_monitor.rs`: `.take()` the
cell; if it held an `OwnedFd`, dropping it closes the file descriptor. -/
def release_inhibitor (s : MonitorState) : MonitorState :=
  match s.inhibitor with
  | some fd => { s with inhibitor := none, openFds := s.openFds.erase fd }
  | none => s

/-- Operations that touch the inhibitor cell: direct calls and the calls made
by the signal handlers (`PrepareForSleep(true)` and `PrepareForShutdown(true)`
release after the callback, `PrepareForSleep(false)` re-takes,
`PrepareForShutdown(false)` only logs). -/
inductive MonitorOp
  | take
  | release
  | signal (s : Signal)
  deriving DecidableEq, Repr

/-- One step of inhibitor accounting. -/
def monitor_step (st : MonitorState) : MonitorOp → MonitorState
  | .take => (take_inhibitor st).1
  | .release => release_inhibitor st
  | .signal (.prepareForSleep true) => release_inhibitor st
  | .signal (.prepareForSleep false) => (take_inhibitor st).1
  | .signal (.prepareForShutdown true) => release_inhibitor st
  | .signal (.prepareForShutdown false) => st

/-- Inhibitor accounting over a whole sequence of operations. -/
def monitor_run (ops : List MonitorOp) : MonitorState :=
  ops.foldl monitor_step initMonitorState

/-! ## Sessions (common/src/session.rs) -/

/-- One entry of the `ListSessions` reply: `(id, uid, user, seat, path)`. -/
structure Session where
  id : String
  user_id : Nat
  user_name : String
  seat_id : String
  path : String
  deriving DecidableEq, Repr

/-- Embedding of `SessionClient::has_other_sessions`. The two underlying
D-Bus interactions are explicit parameters: the result of
`manager.list_sessions()` and the result of `self.session_id()`. The source
propagates a `list_sessions` error with the question-mark operator; a
`session_id` error is recovered by treating the process as sessionless and
answering whether any session exists at all. -/
def has_other_sessions (list_sessions : Except Unit (List Session))
    (session_id : Except Unit String) : Except Unit Bool :=
  match list_sessions with
  | .error e => .error e
  | .ok sessions =>
    let other_session : Bool :=
      match session_id with
      | .ok our_id => sessions.any (fun sess => sess.id == our_id)
      | .error _ => !sessions.isEmpty
    .ok other_session

/-! ## Theorems -/

/-- C8 counterexample: the claim asserts exact decoding for every u64, but at
`u = 2 ^ 63` the computation `(usecs * 1000) as i64` wraps: the result is the
epoch itself (0 nanoseconds) instead of `2 ^ 63` microseconds after it. -/
theorem from_timestamp_usecs_wraps_at_large_input :
    from_timestamp_usecs (2 ^ 63) = 0 ∧ ((2 ^ 63 : Nat) : Int) * 1000 ≠ 0 := by
  constructor
  · decide
  · decide

/-- C8 (amended): microsecond-epoch decoding is exact for every `u : u64`
whose nanosecond value fits in an i64, that is whenever `u * 1000 < 2 ^ 63`:
there `from_timestamp_usecs u` is exactly `u` microseconds (`u * 1000`
nanoseconds) after the UTC UNIX epoch, with no rounding. Beyond that bound
the multiply-then-cast wraps. -/
theorem from_timestamp_usecs_exact (u : Nat) (h : u * 1000 < 2 ^ 63) :
    from_timestamp_usecs u = (u : Int) * 1000 := by
  have h64 : u * 1000 < u64Mod := lt_trans h (by norm_num [u64Mod])
  have e : (u * 1000) % u64Mod = u * 1000 := Nat.mod_eq_of_lt h64
  rw [from_timestamp_usecs, toI64, e, e, if_pos h]
  push_cast
  ring

/-- C8 witness: the amended theorem applied at a concrete input. -/
theorem from_timestamp_usecs_exact_witness :
    from_timestamp_usecs 3 = (3 : Int) * 1000 :=
  from_timestamp_usecs_exact 3 (by norm_num)

/-- C7 counterexample: on a file whose first three lines include an empty
one, the code reads the third line (here `"0"`) and fails, while the claimed
rule (third non-empty line, here `"UTC"`) would return UTC. -/
theorem read_clock_mode_counts_empty_lines :
    read_clock_mode (some ["0.0 0 0.0", "", "0", "UTC"]) = .error (.invalidMode "0")
    ∧ read_clock_mode_spec_nonempty (some ["0.0 0 0.0", "", "0", "UTC"]) = .ok .Utc := by
  exact ⟨rfl, rfl⟩

/-- C7 (amended): `read_clock_mode` derives the mode from the third line of
`/etc/adjtime` counting empty lines, trimmed: UTC maps to UTC, LOCAL maps to
Local, any other content yields a Malformed error, a file of fewer than three
lines yields an error, and when the file is absent (ENOENT) it returns UTC. -/
theorem read_clock_mode_third_line :
    (read_clock_mode none = .ok .Utc)
    ∧ (∀ lines, lines.length ≤ 2 → read_clock_mode (some lines) = .error .invalidFile)
    ∧ (∀ lines l, lines.get? 2 = some l →
        (read_clock_mode (some lines) = .ok .Utc ↔ rust_trim l = "UTC")
        ∧ (read_clock_mode (some lines) = .ok .Local ↔ rust_trim l = "LOCAL")
        ∧ (rust_trim l ≠ "UTC" → rust_trim l ≠ "LOCAL" →
            read_clock_mode (some lines) = .error (.invalidMode (rust_trim l)))) := by
  refine ⟨rfl, ?_, ?_⟩
  · intro lines h
    have hn : lines[2]? = none := List.getElem?_eq_none h
    simp [read_clock_mode, hn]
  · intro lines l hg
    simp only [List.get?_eq_getElem?] at hg
    by_cases hu : rust_trim l = "UTC"
    · simp [read_clock_mode, hg, hu]
    · by_cases hl : rust_trim l = "LOCAL"
      · simp [read_clock_mode, hg, hu, hl]
      · simp [read_clock_mode, hg, hu, hl]

/-- C7 witness: the amended theorem applied at a concrete file whose third
line is ` LOCAL ` surrounded by whitespace. -/
theorem read_clock_mode_third_line_witness :
    read_clock_mode (some ["a", "b", " LOCAL "]) = .ok .Local :=
  (read_clock_mode_third_line.2.2 ["a", "b", " LOCAL "] " LOCAL " rfl).2.1.mpr (by decide)

/-- C6 (confirmed): for every valid naive calendar instant with year in
[1970, 2099] and integer seconds (zero sub-second part), converting with
`RtcTime.from_chrono` and back with `RtcTime.to_chrono` yields the original
instant. -/
theorem rtc_time_round_trip (dt : NaiveDateTime) (hv : dt.Valid)
    (hy1 : 1970 ≤ dt.year) (hy2 : dt.year ≤ 2099) (hms : dt.milli = 0) :
    (RtcTime.from_chrono dt).to_chrono = dt := by
  cases dt with
  | mk year month day hour minute second milli =>
    simp only [NaiveDateTime.Valid] at hv
    obtain ⟨h1, h2, h3, h4, h5, h6, h7, h8⟩ := hv
    have hm0 : milli = 0 := hms
    subst hm0
    have hlt : ¬ ((0 : Nat) > 999) := by omega
    simp only [RtcTime.from_chrono, if_neg hlt, RtcTime.to_chrono]
    have hs60 : ¬ ((second : Int) = 60) := by omega
    rw [if_neg hs60]
    simp only [NaiveDateTime.mk.injEq, eq_self_iff_true, and_true]
    omega

/-- C6 witness: the round trip at a concrete instant, 2030-05-18 03:33:20. -/
theorem rtc_time_round_trip_witness :
    (RtcTime.from_chrono ⟨2030, 5, 18, 3, 33, 20, 0⟩).to_chrono
      = (⟨2030, 5, 18, 3, 33, 20, 0⟩ : NaiveDateTime) :=
  rtc_time_round_trip ⟨2030, 5, 18, 3, 33, 20, 0⟩ (by decide) (by decide) (by decide) rfl

/-- C10 (confirmed): when the sysinfo uptime read fails, `caused_boot`
returns false, and on that path the runner never plans a PowerOff, whatever
the start time and resume-file state. -/
theorem uptime_failure_never_powers_off (start_ns : Int) (file : ResumeFile) :
    caused_boot none = false ∧ runner_action none start_ns file ≠ .powerOff := by
  refine ⟨rfl, ?_⟩
  simp only [runner_action, caused_boot]
  simp only [Bool.false_eq_true, if_false]
  split <;> simp

/-- C9 counterexample: when the underlying `ListSessions` D-Bus call fails,
`has_other_sessions` propagates the error instead of returning Ok. -/
theorem has_other_sessions_propagates_list_error :
    has_other_sessions (.error ()) (.ok "c1") = .error () := rfl

/-- C9 (amended): `has_other_sessions` recovers a failure of the
current-session-ID lookup silently (whenever `ListSessions` succeeds the
result is Ok, even if `session_id` failed, in which case it reports whether
any session exists at all), but it propagates an error of the `ListSessions`
call itself. -/
theorem has_other_sessions_error_handling :
    (∀ (sessions : List Session) (sid : Except Unit String),
      ∃ b, has_other_sessions (.ok sessions) sid = .ok b)
    ∧ (∀ (e : Unit) (sid : Except Unit String),
      has_other_sessions (.error e) sid = .error e)
    ∧ (∀ (sessions : List Session),
      has_other_sessions (.ok sessions) (.error ()) = .ok (!sessions.isEmpty)) := by
  refine ⟨fun sessions sid => ⟨_, rfl⟩, fun e sid => rfl, fun sessions => rfl⟩

/-- C2 (confirmed): the runner plans PowerOff iff the uptime read succeeded
with a value under MIN_INNOCENT_UPTIME; otherwise it plans Suspend iff the
resume file exists with a parsed timestamp and either the start-to-resume
delta is under MIN_INNOCENT_WAKETIME or the start instant precedes the
resume instant; otherwise it performs no power transition. Shutdown beats
suspend beats noop. -/
theorem runner_attribution (uptime : Option Nat) (start_ns : Int) (file : ResumeFile) :
    (runner_action uptime start_ns file = .powerOff ↔
      ∃ u, uptime = some u ∧ u < MIN_INNOCENT_UPTIME)
    ∧ (runner_action uptime start_ns file = .suspend ↔
      (∀ u, uptime = some u → MIN_INNOCENT_UPTIME ≤ u) ∧
        ∃ ms, file = .timestamp ms ∧
          (start_ns - ms * 1000000 < MIN_INNOCENT_WAKETIME ∨ start_ns < ms * 1000000))
    ∧ (runner_action uptime start_ns file = .noAction ↔
      (∀ u, uptime = some u → MIN_INNOCENT_UPTIME ≤ u) ∧
        ∀ ms, file = .timestamp ms →
          MIN_INNOCENT_WAKETIME ≤ start_ns - ms * 1000000) := by
  cases uptime with
  | none =>
    cases file with
    | absent => simp [runner_action, caused_boot, caused_wake]
    | corrupted => simp [runner_action, caused_boot, caused_wake]
    | timestamp ms =>
      simp only [runner_action, caused_boot, caused_wake, Bool.false_eq_true, if_false,
        MIN_INNOCENT_WAKETIME]
      split_ifs with h1 h2 <;>
        simp_all [MIN_INNOCENT_WAKETIME] <;> omega
  | some u =>
    cases file with
    | absent =>
      simp only [runner_action, caused_boot, caused_wake]
      split_ifs with h1 <;> simp_all <;> omega
    | corrupted =>
      simp only [runner_action, caused_boot, caused_wake]
      split_ifs with h1 <;> simp_all <;> omega
    | timestamp ms =>
      simp only [runner_action, caused_boot, caused_wake, MIN_INNOCENT_WAKETIME]
      split_ifs with h1 h2 h3 <;> simp_all [MIN_INNOCENT_WAKETIME] <;> omega

/-- C2 witness: the decision theorem applied at concrete inputs — with
uptime 200 s and a resume file 30 s old the runner still plans PowerOff
(uptime dominates). -/
theorem runner_attribution_witness :
    runner_action (some 200) (30 * 1000000000) (.timestamp 0) = .powerOff :=
  (runner_attribution (some 200) (30 * 1000000000) (.timestamp 0)).1.mpr
    ⟨200, rfl, by norm_num [MIN_INNOCENT_UPTIME]⟩

/-- C1 counterexample: with a preexisting enabled alarm at 100 (UTC hardware
clock) and a later target 200, the claim says the RTC is untouched with no
write issued, but `set_wake_alarm` still issues a write of the unchanged
configuration: the list of `RTC_WKALRM_SET` calls is nonempty. -/
theorem set_wake_alarm_writes_when_alarm_earlier :
    ¬ ((200 : Int) < ClockMode.Utc.to_datetime 0 100)
    ∧ (set_wake_alarm ClockMode.Utc 0 ⟨true, 100⟩ 200).2 ≠ [] := by
  exact ⟨by decide, by decide⟩

/-- Inversion law of the hardware clock conversions: `to_hardware` undoes
`to_datetime` in both clock modes. -/
theorem to_hardware_to_datetime (mode : ClockMode) (tz t : Int) :
    mode.to_hardware tz (mode.to_datetime tz t) = t := by
  cases mode <;> simp only [ClockMode.to_hardware, ClockMode.to_datetime] <;> omega

/-- Injectivity of `to_hardware` at a fixed mode and offset. -/
theorem to_hardware_injEq (mode : ClockMode) (tz : Int) {a b : Int} :
    mode.to_hardware tz a = mode.to_hardware tz b ↔ a = b := by
  cases mode <;> simp only [ClockMode.to_hardware, add_left_inj]

/-- Inversion law in the other direction: `to_datetime` undoes
`to_hardware`. -/
theorem to_datetime_to_hardware (mode : ClockMode) (tz t : Int) :
    mode.to_datetime tz (mode.to_hardware tz t) = t := by
  cases mode <;> simp only [ClockMode.to_hardware, ClockMode.to_datetime] <;> omega

/-- C1 (amended): with a preexisting alarm enabled at T_prev (interpreted
via ClockMode), `set_wake_alarm` always issues exactly one RTC write; the
written configuration differs from the preexisting one iff T_new < T_prev,
in which case the alarm time becomes the target in the hardware domain; when
T_prev < T_new the preexisting configuration is written back unchanged (a
redundant write, not a content change). -/
theorem set_wake_alarm_rewrite_iff (mode : ClockMode) (tz : Int)
    (current : WakeAlarmConfig) (alarm_time : Int)
    (he : current.enabled = true) :
    (set_wake_alarm mode tz current alarm_time).2
        = [(set_wake_alarm mode tz current alarm_time).1]
    ∧ ((set_wake_alarm mode tz current alarm_time).1 ≠ current ↔
        alarm_time < mode.to_datetime tz current.time)
    ∧ (alarm_time ≤ mode.to_datetime tz current.time →
        (set_wake_alarm mode tz current alarm_time).1
          = { enabled := true, time := mode.to_hardware tz alarm_time })
    ∧ (mode.to_datetime tz current.time < alarm_time →
        (set_wake_alarm mode tz current alarm_time).1 = current) := by
  cases current with
  | mk en time =>
    have he' : en = true := he
    subst he'
    dsimp only
    by_cases h : mode.to_datetime tz time < alarm_time
    · have hres : set_wake_alarm mode tz ⟨true, time⟩ alarm_time
          = (⟨true, time⟩, [⟨true, time⟩]) := by
        simp [set_wake_alarm, h]
      rw [hres]
      refine ⟨rfl, iff_of_false (by simp) (by omega), ?_, fun _ => rfl⟩
      intro hle
      exact absurd h (by omega)
    · have hres : set_wake_alarm mode tz ⟨true, time⟩ alarm_time
          = (⟨true, mode.to_hardware tz alarm_time⟩,
             [⟨true, mode.to_hardware tz alarm_time⟩]) := by
        simp [set_wake_alarm, h]
      rw [hres]
      have hEq : mode.to_hardware tz alarm_time = time ↔
          alarm_time = mode.to_datetime tz time := by
        constructor
        · intro hh
          have := congrArg (mode.to_datetime tz) hh
          rwa [to_datetime_to_hardware] at this
        · intro hh
          rw [hh]
          exact to_hardware_to_datetime mode tz time
      refine ⟨rfl, ?_, fun _ => rfl, ?_⟩
      · simp only [ne_eq, WakeAlarmConfig.mk.injEq, true_and]
        rw [hEq]
        constructor
        · intro hne; omega
        · intro hlt; omega
      · intro hlt
        exact absurd hlt h

/-- C1 witness: the amended theorem applied at a concrete state — an enabled
alarm at 300 with an earlier target 200 is rewritten to 200. -/
theorem set_wake_alarm_rewrite_iff_witness :
    (set_wake_alarm ClockMode.Utc 0 ⟨true, 300⟩ 200).1 = ⟨true, 200⟩ :=
  (set_wake_alarm_rewrite_iff ClockMode.Utc 0 ⟨true, 300⟩ 200 rfl).2.2.1 (by decide)

/-- Folding `fold_step` from a populated accumulator computes the running
minimum of the successful entries. -/
theorem foldl_fold_step_some (es : List (Except Unit Int)) : ∀ a : Int,
    es.foldl fold_step (some a) = some ((es.filterMap Except.toOption).foldl min a) := by
  induction es with
  | nil => intro a; rfl
  | cons e rest ih =>
    intro a
    cases e with
    | error u =>
      simp only [List.foldl_cons, List.filterMap_cons]
      exact ih a
    | ok t =>
      simp only [List.foldl_cons, List.filterMap_cons]
      exact ih (min a t)

/-- Folding `fold_step` from the empty accumulator computes the minimum of
the successful entries. -/
theorem foldl_fold_step_none (es : List (Except Unit Int)) :
    es.foldl fold_step none = (es.filterMap Except.toOption).min? := by
  induction es with
  | nil => rfl
  | cons e rest ih =>
    cases e with
    | error u =>
      simp only [List.foldl_cons, List.filterMap_cons]
      exact ih
    | ok t =>
      simp only [List.foldl_cons, List.filterMap_cons]
      exact foldl_fold_step_some rest t

/-- The planned alarm time is the minimum of the units' contributions. -/
theorem plan_alarm_time_eq_min? (monotonic_now realtime_now : Int)
    (units : List (Nat × Nat)) :
    plan_alarm_time monotonic_now realtime_now units
      = (contributions monotonic_now realtime_now units).min? := by
  rw [plan_alarm_time, foldl_fold_step_none, List.filterMap_map]
  rfl

/-- C3 (confirmed): each unit contributes the minimum of its available
realtime instants (a zero NextElapseUSec value contributes nothing on that
clock, a nonzero monotonic value is converted to realtime), a unit for which
neither clock reported yields an error that the fold skips without aborting,
and the planned target is the minimum across all contributing units (`none`
exactly when no unit contributed). -/
theorem plan_alarm_time_is_min (monotonic_now realtime_now : Int)
    (units : List (Nat × Nat)) :
    (plan_alarm_time monotonic_now realtime_now units = none ↔
      contributions monotonic_now realtime_now units = [])
    ∧ (∀ t, plan_alarm_time monotonic_now realtime_now units = some t ↔
        t ∈ contributions monotonic_now realtime_now units ∧
          ∀ s ∈ contributions monotonic_now realtime_now units, t ≤ s)
    ∧ (∀ u ∈ units, u.1 = 0 → u.2 = 0 →
        next_activation monotonic_now realtime_now u = .error ())
    ∧ (∀ u ∈ units, u.1 ≠ 0 → u.2 = 0 →
        next_activation monotonic_now realtime_now u
          = .ok (from_timestamp_usecs u.1))
    ∧ (∀ u ∈ units, u.1 = 0 → u.2 ≠ 0 →
        next_activation monotonic_now realtime_now u
          = .ok (monotonic_to_realtime monotonic_now realtime_now
              (from_timestamp_usecs u.2)))
    ∧ (∀ u ∈ units, u.1 ≠ 0 → u.2 ≠ 0 →
        next_activation monotonic_now realtime_now u
          = .ok (min (from_timestamp_usecs u.1)
              (monotonic_to_realtime monotonic_now realtime_now
                (from_timestamp_usecs u.2)))) := by
  refine ⟨?_, ?_, ?_, ?_, ?_, ?_⟩
  · rw [plan_alarm_time_eq_min?]
    exact List.min?_eq_none_iff
  · intro t
    rw [plan_alarm_time_eq_min?]
    have anti : Std.Antisymm (fun (x1 x2 : Int) => x1 ≤ x2) :=
      ⟨fun h h2 => le_antisymm h h2⟩
    exact List.min?_eq_some_iff (le_refl) (min_choice) (fun _ _ _ => le_min_iff)
  · rintro ⟨a, b⟩ _ h1 h2
    subst h1; subst h2
    rfl
  · rintro ⟨a, b⟩ _ h1 h2
    subst h2
    cases a with
    | zero => exact absurd rfl h1
    | succ n => rfl
  · rintro ⟨a, b⟩ _ h1 h2
    subst h1
    cases b with
    | zero => exact absurd rfl h2
    | succ n => rfl
  · rintro ⟨a, b⟩ _ h1 h2
    cases a with
    | zero => exact absurd rfl h1
    | succ n =>
      cases b with
      | zero => exact absurd rfl h2
      | succ m => rfl

/-- C3 witness: the theorem applied at two concrete realtime-only units; the
earlier one (2 µs after the epoch, decoded to 2000 ns) wins. -/
theorem plan_alarm_time_is_min_witness :
    plan_alarm_time 0 0 [(3, 0), (2, 0)] = some 2000 :=
  ((plan_alarm_time_is_min 0 0 [(3, 0), (2, 0)]).2.1 2000).mpr
    ⟨by decide, by decide⟩

/-- Appending trace chunks preserves the property that every inhibitor
release is immediately preceded by a Pre-event callback. -/
theorem release_preceded_append (xs ys : List MonitorAction)
    (hx : ∀ i, xs[i]? = some MonitorAction.releaseInhibitor →
      1 ≤ i ∧ ∃ e, (e = PowerEvent.PreSleep ∨ e = PowerEvent.PreShutdown) ∧
        xs[i - 1]? = some (MonitorAction.callback e))
    (hy : ∀ i, ys[i]? = some MonitorAction.releaseInhibitor →
      1 ≤ i ∧ ∃ e, (e = PowerEvent.PreSleep ∨ e = PowerEvent.PreShutdown) ∧
        ys[i - 1]? = some (MonitorAction.callback e)) :
    ∀ i, (xs ++ ys)[i]? = some MonitorAction.releaseInhibitor →
      1 ≤ i ∧ ∃ e, (e = PowerEvent.PreSleep ∨ e = PowerEvent.PreShutdown) ∧
        (xs ++ ys)[i - 1]? = some (MonitorAction.callback e) := by
  intro i hi
  by_cases hlt : i < xs.length
  · rw [List.getElem?_append_left hlt] at hi
    obtain ⟨h1, e, he, hcb⟩ := hx i hi
    refine ⟨h1, e, he, ?_⟩
    rw [List.getElem?_append_left (by omega)]
    exact hcb
  · push_neg at hlt
    rw [List.getElem?_append_right hlt] at hi
    obtain ⟨h1, e, he, hcb⟩ := hy (i - xs.length) hi
    refine ⟨by omega, e, he, ?_⟩
    rw [List.getElem?_append_right (by omega)]
    have heq : i - 1 - xs.length = i - xs.length - 1 := by omega
    rw [heq]
    exact hcb

/-- In the trace of a single signal handler, every inhibitor release is
immediately preceded by the corresponding Pre-event callback. -/
theorem handle_signal_release_preceded (sg : Signal) :
    ∀ i, (handle_signal sg)[i]? = some MonitorAction.releaseInhibitor →
      1 ≤ i ∧ ∃ e, (e = PowerEvent.PreSleep ∨ e = PowerEvent.PreShutdown) ∧
        (handle_signal sg)[i - 1]? = some (MonitorAction.callback e) := by
  intro i hi
  cases sg with
  | prepareForSleep b =>
    cases b with
    | true =>
      match i with
      | 0 => exact absurd hi (by decide)
      | 1 => exact ⟨le_refl 1, .PreSleep, Or.inl rfl, rfl⟩
      | (n + 2) => exact absurd hi (by simp [handle_signal, prepare_for_sleep_handler])
    | false =>
      match i with
      | 0 => exact absurd hi (by decide)
      | 1 => exact absurd hi (by decide)
      | (n + 2) => exact absurd hi (by simp [handle_signal, prepare_for_sleep_handler])
  | prepareForShutdown b =>
    cases b with
    | true =>
      match i with
      | 0 => exact absurd hi (by decide)
      | 1 => exact ⟨le_refl 1, .PreShutdown, Or.inr rfl, rfl⟩
      | (n + 2) => exact absurd hi (by simp [handle_signal, prepare_for_shutdown_handler])
    | false =>
      exact absurd hi (by simp [handle_signal, prepare_for_shutdown_handler])

/-- C4 (confirmed): in every execution of the power monitor signal handlers
(modelled as the trace of any delivered signal sequence), an inhibitor
release only ever occurs immediately after a PreSleep or PreShutdown
callback has been invoked and returned: the release is sequenced after the
corresponding Pre callback. -/
theorem release_after_pre_callback (signals : List Signal) :
    ∀ i, (monitor_trace signals)[i]? = some MonitorAction.releaseInhibitor →
      1 ≤ i ∧ ∃ e, (e = PowerEvent.PreSleep ∨ e = PowerEvent.PreShutdown) ∧
        (monitor_trace signals)[i - 1]? = some (MonitorAction.callback e) := by
  induction signals with
  | nil =>
    intro i hi
    simp [monitor_trace] at hi
  | cons sg rest ih =>
    have hsplit : monitor_trace (sg :: rest)
        = handle_signal sg ++ monitor_trace rest := by
      simp [monitor_trace]
    rw [hsplit]
    exact release_preceded_append _ _ (handle_signal_release_preceded sg) ih

/-- C4 witness: the theorem applied to the concrete trace of one
PrepareForSleep(true) delivery; the release at position 1 follows the
PreSleep callback at position 0. -/
theorem release_after_pre_callback_witness :
    1 ≤ 1 ∧ ∃ e, (e = PowerEvent.PreSleep ∨ e = PowerEvent.PreShutdown) ∧
      (monitor_trace [Signal.prepareForSleep true])[1 - 1]?
        = some (MonitorAction.callback e) :=
  release_after_pre_callback [Signal.prepareForSleep true] 1 (by decide)

/-- Preservation of the fd-accounting invariant (the open inhibitor
descriptors are exactly the one in the cell, if any) by each monitor step. -/
theorem monitor_step_inv (s : MonitorState) (op : MonitorOp)
    (h : s.openFds = s.inhibitor.toList) :
    (monitor_step s op).openFds = (monitor_step s op).inhibitor.toList := by
  have htake : (take_inhibitor s).1.openFds = (take_inhibitor s).1.inhibitor.toList := by
    cases hs : s.inhibitor with
    | some fd =>
      rw [hs] at h
      simp [take_inhibitor, hs, h]
    | none =>
      rw [hs] at h
      simp [take_inhibitor, hs, h]
  have hrel : (release_inhibitor s).openFds = (release_inhibitor s).inhibitor.toList := by
    cases hs : s.inhibitor with
    | some fd =>
      rw [hs] at h
      simp [release_inhibitor, hs, h, List.erase_cons_head]
    | none =>
      rw [hs] at h
      simp [release_inhibitor, hs, h]
  cases op with
  | take => exact htake
  | release => exact hrel
  | signal sg =>
    cases sg with
    | prepareForSleep b =>
      cases b with
      | true => exact hrel
      | false => exact htake
    | prepareForShutdown b =>
      cases b with
      | true => exact hrel
      | false => exact h

/-- C5 (confirmed): across every sequence of power-monitor operations
(direct take/release calls and signal deliveries) the monitor holds at most
one inhibitor file descriptor (the open descriptors are exactly the held
one), and `take_inhibitor` on a state that already holds a lock is a no-op:
it returns the state unchanged and issues no Inhibit call (flag false). -/
theorem inhibitor_conservation :
    (∀ ops : List MonitorOp,
      (monitor_run ops).openFds = (monitor_run ops).inhibitor.toList
      ∧ (monitor_run ops).openFds.length ≤ 1)
    ∧ (∀ (s : MonitorState) (fd : Nat), s.inhibitor = some fd →
        take_inhibitor s = (s, false)) := by
  constructor
  · have key : ∀ (ops : List MonitorOp) (s : MonitorState),
        s.openFds = s.inhibitor.toList →
        (List.foldl monitor_step s ops).openFds
          = (List.foldl monitor_step s ops).inhibitor.toList := by
      intro ops
      induction ops with
      | nil => intro s h; exact h
      | cons op rest ih => intro s h; exact ih _ (monitor_step_inv s op h)
    intro ops
    rw [monitor_run]
    have h := key ops initMonitorState rfl
    refine ⟨h, ?_⟩
    rw [h]
    cases (List.foldl monitor_step initMonitorState ops).inhibitor <;> simp
  · intro s fd hfd
    cases s with
    | mk inh nf ofds =>
      have hinh : inh = some fd := hfd
      subst hinh
      simp [take_inhibitor]

/-- C5 witness: the no-op clause applied at a concrete held state. -/
theorem inhibitor_conservation_witness :
    take_inhibitor ⟨some 5, 6, [5]⟩ = (⟨some 5, 6, [5]⟩, false) :=
  inhibitor_conservation.2 ⟨some 5, 6, [5]⟩ 5 rfl

/-- C10 witness: the theorem applied at a concrete start time and an absent
resume file. -/
theorem uptime_failure_never_powers_off_witness :
    caused_boot none = false
    ∧ runner_action none 0 ResumeFile.absent ≠ PowerAction.powerOff :=
  uptime_failure_never_powers_off 0 ResumeFile.absent

/-- C9 witness: the amended theorem applied at a concrete failing
ListSessions result. -/
theorem has_other_sessions_error_handling_witness :
    has_other_sessions (Except.error ()) (Except.ok "") = Except.error () :=
  has_other_sessions_error_handling.2.1 () (Except.ok "")

end NightKitchen
